import Mathlib

/-!
The program qjs-cache: the cache frame and the compile / cache / re-read /
execute pipeline.

A shallow embedding of `src/qjs-cache.c`.

* Bytes (`uint8_t`, `char`) are natural numbers; every byte the model itself
  produces is below 256.
* A stream opened for reading is the list of bytes not yet consumed.
* The C library calls (`fprintf`, `fwrite`, `fscanf`, `fread`, `malloc`,
  `access`, `fopen`) are modelled after ISO C and, where ISO C leaves the
  result open, after glibc on a 64-bit target (`unsigned int` has 32 bits,
  `size_t` and `unsigned long` have 64 bits).
* The QuickJS engine is an external collaborator: its entry points are
  fields of `Engine`, each a function of the history of the run so far, so
  that the result of an engine call may depend on everything that happened
  before it.
* Engine calls are taken to return; what a script does to the file system
  while it runs is outside the model.
* `exit(n)` ends the run with `Outcome.exit n`.
-/

namespace QjsCache

/-! ## Characters -/

/-- The `isspace` class of the C locale: space, `\t`, `\n`, `\v`, `\f`, `\r`. -/
def isspace (c : Nat) : Bool := c == 32 || (9 ≤ c && c ≤ 13)

/-- The `isdigit` class: `0` to `9`. -/
def isdigit (c : Nat) : Bool := 48 ≤ c && c ≤ 57

/-! ## `%u` on output -/

/-- The digit loop of the `%u` conversion: the decimal digits of `n`, most
significant first, in front of `acc`. The first argument bounds the number
of digits produced. -/
def utoaAux : Nat → Nat → List Nat → List Nat
  | 0, n, acc => (48 + n % 10) :: acc
  | fuel + 1, n, acc =>
    if n < 10 then (48 + n) :: acc
    else utoaAux fuel (n / 10) ((48 + n % 10) :: acc)

/-- The text `printf("%u", n)` produces: decimal ASCII, no sign, no padding. -/
def utoa (n : Nat) : List Nat := utoaAux n n []

/-- The bytes of `fprintf(fo, "%u\n", n)`. -/
def fprintf_u_nl (n : Nat) : List Nat := utoa n ++ [10]

/-! ## `%u` on input -/

/-- The value `strtoul(…, 10)` computes from a digit string (before range
clamping). -/
def digitsValue (ds : List Nat) : Nat := ds.foldl (fun a d => 10 * a + (d - 48)) 0

/-- What glibc stores through an `unsigned int *` for `%u`: the digits go
through `strtoul` (clamped to `ULONG_MAX` on overflow, negated in
`unsigned long` after a minus sign) and the result is converted to
`unsigned int`. -/
def strtoul_uint (neg : Bool) (v : Nat) : Nat :=
  if 2 ^ 64 ≤ v then 2 ^ 32 - 1
  else if neg then (2 ^ 64 - v) % 2 ^ 32
  else v % 2 ^ 32

/-- Splits an optional sign off the front of the input item of `%u`. -/
def scanSign : List Nat → Bool × List Nat
  | 45 :: t => (true, t)
  | 43 :: t => (false, t)
  | s => (false, s)

/-- The call `fscanf(fi, "%u\n", &x)` on a stream with unread bytes `s`.
Returns the value stored into `x` (`none` when nothing is stored: input
failure or matching failure) and the bytes left unread.

`%u` skips leading white space, then takes an optional sign and the longest
run of digits; without a digit nothing is stored and the format stops. After
a successful `%u` the directive `\n` consumes every white-space byte that
follows, up to the first byte that is not white space. -/
def fscanf_u_nl (s : List Nat) : Option Nat × List Nat :=
  let s1 := s.dropWhile isspace
  let (neg, s2) := scanSign s1
  let ds := s2.takeWhile isdigit
  let s3 := s2.dropWhile isdigit
  if ds.isEmpty then (none, s2)
  else (some (strtoul_uint neg (digitsValue ds)), s3.dropWhile isspace)

/-! ## Memory -/

/-- A heap block: one entry per byte, `none` for a byte whose value is
indeterminate (never written since `malloc`). -/
abbrev Buffer := List (Option Nat)

/-- The block `malloc(n)` returns: `n` indeterminate bytes. The allocation is
taken to succeed. -/
def malloc (n : Nat) : Buffer := List.replicate n none

/-- The call `fread(buf, size, 1, fi)` on a stream with unread bytes `s`:
transfers up to `size` bytes to the start of `buf`. Returns the block and
the bytes left unread, or `none` when the bytes transferred do not fit the
block (a write past the end of the allocation: undefined behaviour). -/
def fread (buf : Buffer) (size : Nat) (s : List Nat) : Option (Buffer × List Nat) :=
  let got := s.take size
  if got.length ≤ buf.length then
    some (got.map some ++ buf.drop got.length, s.drop size)
  else none

/-! ## The frame, as written and as read -/

/-- Lines 84-88 of `output_object_code`: what goes to the output stream for a
serialized payload `out_buf` of `out_buf_len = out_buf.length` bytes:
`fprintf(fo, "%u\n", (unsigned int) out_buf_len)` and then
`fwrite(out_buf, out_buf_len, 1, fo)`. -/
def output_frame (out_buf : List Nat) : List Nat :=
  fprintf_u_nl (out_buf.length % 2 ^ 32) ++ out_buf

/-- What the frame-reading steps hand on. -/
structure FrameRead where
  /-- The value of `in_buf_len` after `fscanf`. -/
  in_buf_len : Nat
  /-- The size passed to `malloc`. -/
  alloc : Nat
  /-- The block `in_buf` after `fread`. -/
  in_buf : Buffer
  /-- The bytes of the stream left unread. -/
  rest : List Nat
deriving DecidableEq, Repr

/-- Lines 110-115 of `read_js_from_cache` on a stream with unread bytes `s`.
`in_buf_len` is declared without initializer: `uninit` is the unspecified
value it holds when `fscanf` stores nothing. The result of `fscanf` is not
looked at, nor that of `fread`. `in_buf_len+1` is `unsigned int`
arithmetic. Returns `none` when `fread` writes past the block. -/
def read_frame (uninit : Nat) (s : List Nat) : Option FrameRead :=
  let in_buf_len := uninit
  let (stored, s) := fscanf_u_nl s
  let in_buf_len := stored.getD in_buf_len
  let alloc := (in_buf_len + 1) % 2 ^ 32
  let in_buf := malloc alloc
  match fread in_buf in_buf_len s with
  | none => none
  | some (in_buf, s) => some ⟨in_buf_len, alloc, in_buf, s⟩

/-! ## The engine and the world -/

/-- An engine value (`JSValue`), as far as this program tells values apart:
`JS_UNDEFINED`, `JS_EXCEPTION`, or any other value. -/
inductive JSValue where
  | undefined
  | exception
  | other (id : Nat)
deriving DecidableEq, Repr

/-- The constant `JS_UNDEFINED`. -/
def JS_UNDEFINED : JSValue := JSValue.undefined

/-- The test `JS_IsException(v)`. -/
def JS_IsException : JSValue → Bool
  | JSValue.exception => true
  | _ => false

/-- What the run does that can be seen from outside, in order. -/
inductive Event where
  | stdout (text : String)
  | stderr (text : String)
  | fopen (path : String) (mode : String)
  | fclose (path : String)
  | js_load_file (path : String)
  | js_free
  | js_std_dump_error
  | js_std_add_helpers
  | js_std_loop
  | js_std_free_handlers
  | JS_NewRuntime
  | JS_NewContext
  | JS_FreeValue (v : JSValue)
  | JS_FreeContext
  | JS_FreeRuntime
  | JS_WriteObject (obj : JSValue) (flags : Nat)
  | JS_ReadObject (buf : Buffer) (len : Nat) (flags : Nat)
  | JS_Eval (input : List Nat) (filename : String) (flags : Nat)
  | JS_EvalFunction (v : JSValue)
deriving DecidableEq, Repr

/-- The QuickJS library, which is not part of this repository: the flag
constants of `quickjs.h` and the entry points this program calls. Each entry
point sees the events of the run so far (its `JSContext` state). -/
structure Engine where
  JS_WRITE_OBJ_BYTECODE : Nat
  JS_WRITE_OBJ_BSWAP : Nat
  JS_READ_OBJ_BYTECODE : Nat
  JS_EVAL_FLAG_COMPILE_ONLY : Nat
  JS_EVAL_TYPE_GLOBAL : Nat
  /-- Whether `JS_NewRuntime()` returns a runtime (not `NULL`). -/
  JS_NewRuntime : List Event → Bool
  /-- Whether `JS_NewContext(rt)` returns a context (not `NULL`). -/
  JS_NewContext : List Event → Bool
  /-- The bytes `JS_WriteObject` returns, `none` for `NULL`. -/
  JS_WriteObject : List Event → JSValue → Nat → Option (List Nat)
  /-- `JS_ReadObject(ctx, buf, buf_len, flags)`. -/
  JS_ReadObject : List Event → Buffer → Nat → Nat → JSValue
  /-- `JS_Eval(ctx, input, input_len, filename, eval_flags)`. -/
  JS_Eval : List Event → List Nat → String → Nat → JSValue
  /-- `JS_EvalFunction(ctx, fun_obj)`. -/
  JS_EvalFunction : List Event → JSValue → JSValue

/-- The file system (regular files only) and the events so far. -/
structure World where
  /-- The content of the entry at a path, `none` when there is no entry. -/
  files : String → Option (List Nat)
  /-- Whether `fopen(path, "rb")` succeeds on an existing entry. -/
  openR : String → Bool
  /-- Whether `fopen(path, "wb")` succeeds. -/
  openW : String → Bool
  /-- The events so far, oldest first. -/
  trace : List Event

/-- Appends an event to the trace. -/
def World.log (w : World) (e : Event) : World :=
  { w with trace := w.trace ++ [e] }

/-- Replaces the content at one path. -/
def World.setFile (w : World) (path : String) (content : List Nat) : World :=
  { w with files := fun p => if p = path then some content else w.files p }

/-- How a function of the program ends. -/
inductive Outcome (α : Type) where
  /-- It returns `a`. -/
  | ret (a : α) (w : World)
  /-- It calls `exit(status)`. -/
  | exit (status : Nat) (w : World)
  /-- It writes past the end of a heap block. -/
  | undefined (w : World)

/-- The world in which a function ends. -/
def Outcome.world {α : Type} : Outcome α → World
  | Outcome.ret _ w => w
  | Outcome.exit _ w => w
  | Outcome.undefined w => w

/-- The call `access(path, F_OK)`: `0` when an entry exists, `-1` otherwise. -/
def access_F_OK (w : World) (path : String) : Int :=
  if (w.files path).isSome then 0 else -1

/-- The call `fopen(path, "rb")`: the unread bytes of the stream, `none` for
`NULL`. -/
def fopen_rb (w : World) (path : String) : Option (List Nat) :=
  match w.files path with
  | none => none
  | some content => if w.openR path then some content else none

/-- The call `fopen(path, "wb")`: the world with the file created or
truncated to length zero, `none` for `NULL`. -/
def fopen_wb (w : World) (path : String) : Option World :=
  if w.openW path then some (w.setFile path []) else none

/-- Output to a stream opened on `path` for writing: the bytes go to the end
of the file. -/
def World.write (w : World) (path : String) (bytes : List Nat) : World :=
  w.setFile path ((w.files path).getD [] ++ bytes)

/-- The call `js_load_file(ctx, &buf_len, filename)` of quickjs-libc: the
whole content of the file, `none` for `NULL`. -/
def js_load_file (w : World) (filename : String) : Option (List Nat) :=
  fopen_rb w filename

/-- The file-scope variable `byte_swap`, initialised to `FALSE` and never
assigned. -/
def byte_swap : Bool := false

/-! ## The program -/

/-- The function `output_object_code(ctx, bytefilename, obj)`. -/
def output_object_code (E : Engine) (bytefilename : String) (obj : JSValue)
    (w : World) : Outcome Unit :=
  let flags := E.JS_WRITE_OBJ_BYTECODE
  let flags := if byte_swap then flags ||| E.JS_WRITE_OBJ_BSWAP else flags
  let out_buf := E.JS_WriteObject w.trace obj flags
  let w := w.log (Event.JS_WriteObject obj flags)
  match out_buf with
  | none => Outcome.exit 1 (w.log Event.js_std_dump_error)
  | some out_buf =>
    let out_buf_len := out_buf.length
    let w := w.log (Event.fopen bytefilename "wb")
    match fopen_wb w bytefilename with
    | none =>
      Outcome.exit 1 (w.log (Event.stderr
        ("Failed open file \x27" ++ bytefilename ++ "\x27 for writing \n")))
    | some w =>
      let w := w.write bytefilename (fprintf_u_nl (out_buf_len % 2 ^ 32))
      let w := w.write bytefilename out_buf
      let w := w.log (Event.fclose bytefilename)
      let w := w.log (Event.stdout
        ("Wrote " ++ toString out_buf_len ++ "bytes to file \x27" ++ bytefilename ++ "\x27\n"))
      let w := w.log Event.js_free
      Outcome.ret () w

/-- The function `read_js_from_cache(ctx, bytefilename)`. `uninit` is the
unspecified value of the uninitialised `in_buf_len`. -/
def read_js_from_cache (E : Engine) (uninit : Nat) (bytefilename : String)
    (w : World) : Outcome JSValue :=
  if access_F_OK w bytefilename = -1 then
    Outcome.ret JS_UNDEFINED (w.log (Event.stdout
      ("WARN: Cache file \x27" ++ bytefilename ++ "\x27 npn-existant. \n")))
  else
    let w := w.log (Event.fopen bytefilename "rb")
    match fopen_rb w bytefilename with
    | none =>
      Outcome.exit 1 (w.log (Event.stderr
        ("Failed open file \x27" ++ bytefilename ++ "\x27 for reading \n")))
    | some fi =>
      match read_frame uninit fi with
      | none => Outcome.undefined w
      | some fr =>
        let w := w.log (Event.stdout
          ("Read " ++ toString fr.in_buf_len ++ "bytes of bytecode from file \x27"
            ++ bytefilename ++ "\x27\n"))
        let jsCode := E.JS_ReadObject w.trace fr.in_buf fr.in_buf_len E.JS_READ_OBJ_BYTECODE
        let w := w.log (Event.JS_ReadObject fr.in_buf fr.in_buf_len E.JS_READ_OBJ_BYTECODE)
        if JS_IsException jsCode then
          let w := w.log (Event.stderr
            ("Failed reading JS of read file \x27" ++ bytefilename ++ "\x27 into QuickJS.\n"))
          let w := w.log Event.js_std_dump_error
          Outcome.exit 1 w
        else
          Outcome.ret jsCode w

/-- The function `read_js_compile_and_cache_file(ctx, jsfilename, bytefilename)`. -/
def read_js_compile_and_cache_file (E : Engine) (jsfilename bytefilename : String)
    (w : World) : Outcome JSValue :=
  let buf := js_load_file w jsfilename
  let w := w.log (Event.js_load_file jsfilename)
  match buf with
  | none =>
    Outcome.exit 1 (w.log (Event.stderr ("Could not load \x27" ++ jsfilename ++ "\x27\n")))
  | some buf =>
    let w := w.log (Event.stdout ("Loaded file \x27" ++ jsfilename ++ "\x27 \n"))
    let eval_flags := E.JS_EVAL_FLAG_COMPILE_ONLY
    let eval_flags := eval_flags ||| E.JS_EVAL_TYPE_GLOBAL
    let jsCode := E.JS_Eval w.trace buf jsfilename eval_flags
    let w := w.log (Event.JS_Eval buf jsfilename eval_flags)
    if JS_IsException jsCode then
      let w := w.log (Event.stderr
        ("Failed compiling JS of file  \x27" ++ jsfilename ++ "\x27\n"))
      let w := w.log Event.js_std_dump_error
      Outcome.exit 1 w
    else
      match output_object_code E bytefilename jsCode w with
      | Outcome.ret _ w => Outcome.ret jsCode w
      | Outcome.exit status w => Outcome.exit status w
      | Outcome.undefined w => Outcome.undefined w

/-- The function `main`, called with `argv[1] = jsfilename` and
`argv[2] = bytefilename`. Falling off the end of `main` returns 0. -/
def main (E : Engine) (uninit : Nat) (jsfilename bytefilename : String)
    (w : World) : Outcome Nat :=
  let rt := E.JS_NewRuntime w.trace
  let w := w.log Event.JS_NewRuntime
  if !rt then
    Outcome.exit 2 (w.log (Event.stderr "qjs: cannot allocate JS runtime\n"))
  else
    let ctx := E.JS_NewContext w.trace
    let w := w.log Event.JS_NewContext
    if !ctx then
      Outcome.exit 2 (w.log (Event.stderr "qjs: cannot allocate JS context\n"))
    else
      let w := w.log Event.js_std_add_helpers
      match read_js_compile_and_cache_file E jsfilename bytefilename w with
      | Outcome.exit status w => Outcome.exit status w
      | Outcome.undefined w => Outcome.undefined w
      | Outcome.ret origJsCode w =>
        let w := w.log (Event.JS_FreeValue origJsCode)
        match read_js_from_cache E uninit bytefilename w with
        | Outcome.exit status w => Outcome.exit status w
        | Outcome.undefined w => Outcome.undefined w
        | Outcome.ret cachedJsCode w =>
          let w := w.log (Event.stdout "Executing JS ....\n")
          let result := E.JS_EvalFunction w.trace cachedJsCode
          let w := w.log (Event.JS_EvalFunction cachedJsCode)
          let w :=
            if JS_IsException result then
              (w.log (Event.stderr "Failed executing cached JS")).log Event.js_std_dump_error
            else w
          let w := w.log Event.js_std_loop
          let w := w.log (Event.stdout "DONE executing JS.\n")
          let w := w.log (Event.JS_FreeValue result)
          let w := w.log Event.js_std_free_handlers
          let w := w.log Event.JS_FreeContext
          let w := w.log Event.JS_FreeRuntime
          Outcome.ret 0 w

/-! ## Engines and worlds for the worked examples -/

/-- An engine for worked examples. Runtime and context are allocated; a
source compiles unless it is empty, to a value named after its first byte;
the value `n` serializes to the two bytes `A`, `n`; deserialization accepts
exactly a block that starts with `A` and a second byte, declared length 2;
executing a value raises an exception. -/
def demoEngine : Engine where
  JS_WRITE_OBJ_BYTECODE := 1
  JS_WRITE_OBJ_BSWAP := 2
  JS_READ_OBJ_BYTECODE := 1
  JS_EVAL_FLAG_COMPILE_ONLY := 32
  JS_EVAL_TYPE_GLOBAL := 0
  JS_NewRuntime := fun _ => true
  JS_NewContext := fun _ => true
  JS_WriteObject := fun _ v _ =>
    match v with
    | JSValue.other n => some [65, n]
    | _ => none
  JS_ReadObject := fun _ buf len _ =>
    match len, buf with
    | 2, some 65 :: some n :: _ => JSValue.other n
    | _, _ => JSValue.exception
  JS_Eval := fun _ input _ _ =>
    match input with
    | [] => JSValue.exception
    | b :: _ => JSValue.other b
  JS_EvalFunction := fun _ _ => JSValue.exception

/-- The engine `demoEngine`, except that deserialization accepts every
block. -/
def laxEngine : Engine :=
  { demoEngine with JS_ReadObject := fun _ _ _ _ => JSValue.other 1 }

/-- The engine `demoEngine`, except that serialization yields `2 ^ 32` bytes. -/
def hugeEngine : Engine :=
  { demoEngine with JS_WriteObject := fun _ _ _ => some (List.replicate (2 ^ 32) 65) }

/-- A world with no file at all, in which every `fopen` that can succeed
does. -/
def emptyWorld : World where
  files := fun _ => none
  openR := fun _ => true
  openW := fun _ => true
  trace := []

/-- The world `emptyWorld` with one file. -/
def oneFile (path : String) (content : List Nat) : World :=
  emptyWorld.setFile path content

/-! ## Facts about `%u` -/

theorem digitsValue_snoc (ds : List Nat) (d : Nat) :
    digitsValue (ds ++ [d]) = 10 * digitsValue ds + (d - 48) := by
  simp [digitsValue, List.foldl_append]

theorem utoaAux_spec (fuel : Nat) : ∀ (n : Nat) (acc : List Nat), n ≤ fuel →
    ∃ ds, utoaAux fuel n acc = ds ++ acc ∧ ds ≠ [] ∧ (∀ d ∈ ds, isdigit d = true) ∧
      digitsValue ds = n := by
  induction fuel with
  | zero =>
    intro n acc hn
    have h0 : n = 0 := by omega
    subst h0
    refine ⟨[48], by simp [utoaAux], by simp, ?_, by simp [digitsValue]⟩
    intro d hd
    simp at hd
    subst hd
    decide
  | succ fuel ih =>
    intro n acc hn
    by_cases h10 : n < 10
    · refine ⟨[48 + n], by simp [utoaAux, h10], by simp, ?_, ?_⟩
      · intro d hd
        simp at hd
        subst hd
        simp [isdigit]
        omega
      · simp [digitsValue]
    · have hle : n / 10 ≤ fuel := by omega
      obtain ⟨ds, hds, hne, hdig, hval⟩ := ih (n / 10) ((48 + n % 10) :: acc) hle
      refine ⟨ds ++ [48 + n % 10], ?_, by simp, ?_, ?_⟩
      · simp [utoaAux, h10, hds]
      · intro d hd
        rcases List.mem_append.mp hd with h | h
        · exact hdig d h
        · simp at h
          subst h
          simp [isdigit]
          omega
      · rw [digitsValue_snoc, hval]
        omega

/-- The text of `%u` is a non-empty run of digits whose value is the number
printed. -/
theorem utoa_spec (n : Nat) :
    utoa n ≠ [] ∧ (∀ d ∈ utoa n, isdigit d = true) ∧ digitsValue (utoa n) = n := by
  obtain ⟨ds, hds, hne, hdig, hval⟩ := utoaAux_spec n n [] (Nat.le_refl n)
  have h : utoa n = ds := by simpa [utoa] using hds
  rw [h]
  exact ⟨hne, hdig, hval⟩

theorem isdigit_not_isspace {d : Nat} (h : isdigit d = true) : isspace d = false := by
  simp [isdigit] at h
  simp [isspace]
  omega

theorem scanSign_of_isdigit {d : Nat} (t : List Nat) (h : isdigit d = true) :
    scanSign (d :: t) = (false, d :: t) := by
  simp [isdigit] at h
  unfold scanSign
  split
  · rename_i heq
    simp at heq
    omega
  · rename_i heq
    simp at heq
    omega
  · rfl

theorem strtoul_uint_of_lt {v : Nat} (h : v < 2 ^ 32) : strtoul_uint false v = v := by
  have h1 : ¬ (2 ^ 64 ≤ v) := by omega
  unfold strtoul_uint
  rw [if_neg h1]
  simpa using Nat.mod_eq_of_lt h

/-- Reading back a header: after the digits of `n` and the newline, `%u\n`
stores `n` and leaves the stream at the first byte that is not white space. -/
theorem fscanf_u_nl_header (n : Nat) (hn : n < 2 ^ 32) (rest : List Nat) :
    fscanf_u_nl (utoa n ++ 10 :: rest) = (some n, rest.dropWhile isspace) := by
  obtain ⟨hne, hdig, hval⟩ := utoa_spec n
  obtain ⟨d, ds, hcons⟩ := List.exists_cons_of_ne_nil hne
  have hd : isdigit d = true := hdig d (by simp [hcons])
  have hsp : isspace d = false := isdigit_not_isspace hd
  have h1 : (utoa n ++ 10 :: rest).dropWhile isspace = utoa n ++ 10 :: rest := by
    rw [hcons]
    simp [List.dropWhile_cons, hsp]
  have h2 : scanSign (utoa n ++ 10 :: rest) = (false, utoa n ++ 10 :: rest) := by
    rw [hcons]
    exact scanSign_of_isdigit _ hd
  have h10 : isdigit 10 = false := by decide
  have h3 : (utoa n ++ 10 :: rest).takeWhile isdigit = utoa n := by
    rw [List.takeWhile_append_of_pos hdig]
    simp [List.takeWhile_cons, h10]
  have h4 : (utoa n ++ 10 :: rest).dropWhile isdigit = 10 :: rest := by
    rw [List.dropWhile_append_of_pos hdig]
    simp [List.dropWhile_cons, h10]
  have h5 : (utoa n).isEmpty = false := by
    rw [hcons]
    rfl
  have h6 : isspace 10 = true := by decide
  simp only [fscanf_u_nl, h1, h2, h3, h4, h5, hval, strtoul_uint_of_lt hn]
  simp [List.dropWhile_cons, h6]

/-! ## Facts about the frame -/

/-- The white-space bytes are the six the C locale names. -/
theorem isspace_iff (b : Nat) : isspace b = true ↔ b ∈ [32, 9, 10, 11, 12, 13] := by
  simp [isspace]
  omega

theorem output_frame_eq (P : List Nat) :
    output_frame P = utoa (P.length % 2 ^ 32) ++ 10 :: P := by
  simp [output_frame, fprintf_u_nl]

/-- The frame-reading steps on a written frame, for any payload: the header
always parses to the written length, and `fread` starts at the first
payload byte that is not white space. -/
theorem read_frame_output_frame (uninit : Nat) (P : List Nat) :
    read_frame uninit (output_frame P) =
      match fread (malloc ((P.length % 2 ^ 32 + 1) % 2 ^ 32)) (P.length % 2 ^ 32)
          (P.dropWhile isspace) with
      | none => none
      | some (in_buf, s) =>
        some ⟨P.length % 2 ^ 32, (P.length % 2 ^ 32 + 1) % 2 ^ 32, in_buf, s⟩ := by
  have hlt : P.length % 2 ^ 32 < 2 ^ 32 := Nat.mod_lt _ (by decide)
  rw [output_frame_eq]
  simp only [read_frame, fscanf_u_nl_header _ hlt, Option.getD_some]

theorem dropWhile_isspace_eq_self {P : List Nat}
    (hws : ∀ b ∈ P.head?, b ∉ [32, 9, 10, 11, 12, 13]) : P.dropWhile isspace = P := by
  cases P with
  | nil => rfl
  | cons b t =>
    have hb : isspace b = false := by
      have := hws b (by simp)
      cases h : isspace b with
      | false => rfl
      | true => exact absurd ((isspace_iff b).mp h) this
    simp [List.dropWhile_cons, hb]

/-- A block read in full: `size` bytes are there and fit. -/
theorem fread_full (n : Nat) (P rest : List Nat) :
    fread (malloc (P.length + 1 + n)) P.length (P ++ rest) =
      some (P.map some ++ List.replicate (n + 1) none, rest) := by
  simp [fread, malloc]
  omega

/-- The round trip of a frame, on the payloads for which it holds. -/
theorem read_frame_output_frame_exact (uninit : Nat) (P : List Nat) (hlen : P.length < 2 ^ 32 - 1)
    (hws : ∀ b ∈ P.head?, b ∉ [32, 9, 10, 11, 12, 13]) :
    read_frame uninit (output_frame P) =
      some ⟨P.length, P.length + 1, P.map some ++ [none], []⟩ := by
  have h1 : P.length % 2 ^ 32 = P.length := Nat.mod_eq_of_lt (by omega)
  have h2 : (P.length + 1) % 2 ^ 32 = P.length + 1 := Nat.mod_eq_of_lt (by omega)
  have h3 := fread_full 0 P []
  simp only [List.append_nil, Nat.add_zero] at h3
  rw [read_frame_output_frame, h1, h2, dropWhile_isspace_eq_self hws, h3]
  rfl

theorem dropWhile_isspace_replicate (n b : Nat) (hb : isspace b = false) :
    (List.replicate n b).dropWhile isspace = List.replicate n b := by
  cases n with
  | zero => rfl
  | succ n => simp [List.replicate_succ, List.dropWhile_cons, hb]

/-- A payload whose length is a multiple of `2 ^ 32`: the header says 0. -/
theorem read_frame_wrapped_length (uninit n b : Nat) (hb : isspace b = false)
    (hn : n % 2 ^ 32 = 0) :
    read_frame uninit (output_frame (List.replicate n b)) =
      some ⟨0, 1, [none], List.replicate n b⟩ := by
  rw [read_frame_output_frame, List.length_replicate, hn,
    dropWhile_isspace_replicate n b hb]
  simp [fread, malloc]

/-- A payload of `2 ^ 32 - 1` bytes: `in_buf_len+1` wraps to 0 and `fread`
writes past the empty block. -/
theorem read_frame_wrapped_alloc (uninit n b : Nat) (hb : isspace b = false)
    (hn : n % 2 ^ 32 + 1 = 2 ^ 32) :
    read_frame uninit (output_frame (List.replicate n b)) = none := by
  have h0 : (n % 2 ^ 32 + 1) % 2 ^ 32 = 0 := by rw [hn]; exact Nat.mod_self _
  have hpos : 0 < n % 2 ^ 32 := by omega
  have hle : n % 2 ^ 32 ≤ n := Nat.mod_le _ _
  rw [read_frame_output_frame, List.length_replicate, h0,
    dropWhile_isspace_replicate n b hb]
  have hlen : ((List.replicate n b).take (n % 2 ^ 32)).length = n % 2 ^ 32 := by
    rw [List.length_take, List.length_replicate]
    omega
  have hnot : ¬ ((List.replicate n b).take (n % 2 ^ 32)).length ≤ (malloc 0).length := by
    rw [hlen]
    simp [malloc]
    omega
  simp only [fread, if_neg hnot]

/-! ## C1 and C10: the frame round trip -/

/-- C10. For every payload `P` shorter than `2 ^ 32 - 1` bytes that is empty
or begins with a byte that is not white space, on the frame written by
`output_object_code`: the header is a run of digits whose value is
`len(P)` reduced to 32 bits, followed by a newline and `P`; `fscanf` with
`%u\n` stores `len(P)` and leaves the stream at the payload; the block
allocated has `(len(P) mod 2^32 + 1) mod 2^32` bytes; and after `fread` the
declared length is `len(P)`, the block holds exactly the bytes of `P` in its
first `len(P)` places, and nothing is left unread. -/
theorem conditional_frame_round_trip (uninit : Nat) (P : List Nat)
    (hlen : P.length < 2 ^ 32 - 1)
    (hws : ∀ b ∈ P.head?, b ∉ [32, 9, 10, 11, 12, 13]) :
    (∃ hdr, output_frame P = hdr ++ 10 :: P ∧ hdr ≠ [] ∧ (∀ d ∈ hdr, isdigit d = true) ∧
      digitsValue hdr = P.length % 2 ^ 32) ∧
    fscanf_u_nl (output_frame P) = (some P.length, P) ∧
    ∃ fr, read_frame uninit (output_frame P) = some fr ∧
      fr.in_buf_len = P.length ∧
      fr.alloc = (P.length % 2 ^ 32 + 1) % 2 ^ 32 ∧
      fr.in_buf.length = fr.alloc ∧
      fr.in_buf.take P.length = P.map some ∧
      fr.rest = [] := by
  have h1 : P.length % 2 ^ 32 = P.length := Nat.mod_eq_of_lt (by omega)
  have h2 : (P.length + 1) % 2 ^ 32 = P.length + 1 := Nat.mod_eq_of_lt (by omega)
  obtain ⟨hne, hdig, hval⟩ := utoa_spec (P.length % 2 ^ 32)
  refine ⟨⟨utoa (P.length % 2 ^ 32), output_frame_eq P, hne, hdig, hval⟩, ?_, ?_⟩
  · rw [output_frame_eq, h1, fscanf_u_nl_header _ (by omega), dropWhile_isspace_eq_self hws]
  · refine ⟨_, read_frame_output_frame_exact uninit P hlen hws, rfl, ?_, ?_, ?_, rfl⟩
    · simp only [h1, h2]
    · simp
    · simp

/-- A payload the condition of C10 admits: two bytes, `AB`. -/
theorem conditional_frame_round_trip_witness :
    (∃ hdr, output_frame [65, 66] = hdr ++ 10 :: [65, 66] ∧ hdr ≠ [] ∧
      (∀ d ∈ hdr, isdigit d = true) ∧ digitsValue hdr = [65, 66].length % 2 ^ 32) ∧
    fscanf_u_nl (output_frame [65, 66]) = (some [65, 66].length, [65, 66]) ∧
    ∃ fr, read_frame 0 (output_frame [65, 66]) = some fr ∧
      fr.in_buf_len = [65, 66].length ∧
      fr.alloc = ([65, 66].length % 2 ^ 32 + 1) % 2 ^ 32 ∧
      fr.in_buf.length = fr.alloc ∧
      fr.in_buf.take [65, 66].length = [65, 66].map some ∧
      fr.rest = [] :=
  conditional_frame_round_trip 0 [65, 66] (by decide) (by decide)

/-- C1, refuted as stated. The round trip fails for the one-byte payload
holding a space (the `\n` directive of `fscanf` swallows it, so no payload
byte reaches the block), for a payload of `2 ^ 32` bytes (the header says 0)
and for a payload of `2 ^ 32 - 1` bytes (the block allocated has 0 bytes and
`fread` writes past it). -/
theorem decode_encode_counterexample :
    (¬ ∃ fr, read_frame 0 (output_frame [32]) = some fr ∧
      fr.in_buf_len = [32].length ∧ fr.in_buf.take [32].length = [32].map some) ∧
    (¬ ∃ fr, read_frame 0 (output_frame (List.replicate (2 ^ 32) 65)) = some fr ∧
      fr.in_buf_len = (List.replicate (2 ^ 32) 65).length ∧
      fr.in_buf.take (List.replicate (2 ^ 32) 65).length =
        (List.replicate (2 ^ 32) 65).map some) ∧
    (¬ ∃ fr, read_frame 0 (output_frame (List.replicate (2 ^ 32 - 1) 65)) = some fr ∧
      fr.in_buf_len = (List.replicate (2 ^ 32 - 1) 65).length ∧
      fr.in_buf.take (List.replicate (2 ^ 32 - 1) 65).length =
        (List.replicate (2 ^ 32 - 1) 65).map some) := by
  refine ⟨?_, ?_, ?_⟩
  · have h : read_frame 0 (output_frame [32]) = some ⟨1, 2, [none, none], []⟩ := by decide
    rintro ⟨fr, hfr, -, htake⟩
    rw [h] at hfr
    cases hfr
    simp at htake
  · rintro ⟨fr, hfr, hl, -⟩
    rw [read_frame_wrapped_length 0 _ 65 (by decide) (Nat.mod_self _)] at hfr
    cases hfr
    rw [List.length_replicate] at hl
    exact absurd hl (by decide)
  · rintro ⟨fr, hfr, -, -⟩
    rw [read_frame_wrapped_alloc 0 _ 65 (by decide) (by decide)] at hfr
    cases hfr

/-- C1, amended. For every payload `P` shorter than `2 ^ 32 - 1` bytes (the
empty payload, payloads above 64KB included) that is empty or begins with a
byte that is not white space, the frame-reading steps of
`read_js_from_cache` on the frame `output_object_code` writes for `P` yield
a declared length equal to `len(P)` and a block whose first `len(P)` bytes
are exactly `P`. -/
theorem decode_encode_admissible (uninit : Nat) (P : List Nat)
    (hlen : P.length < 2 ^ 32 - 1)
    (hws : ∀ b ∈ P.head?, b ∉ [32, 9, 10, 11, 12, 13]) :
    ∃ fr, read_frame uninit (output_frame P) = some fr ∧
      fr.in_buf_len = P.length ∧ fr.in_buf.take P.length = P.map some := by
  refine ⟨_, read_frame_output_frame_exact uninit P hlen hws, rfl, ?_⟩
  simp

/-- The empty payload, a one-byte payload and a payload of 70000 bytes all
meet the conditions of the amended C1. -/
theorem decode_encode_admissible_witness :
    (∃ fr, read_frame 0 (output_frame []) = some fr ∧
      fr.in_buf_len = ([] : List Nat).length ∧
      fr.in_buf.take ([] : List Nat).length = ([] : List Nat).map some) ∧
    (∃ fr, read_frame 0 (output_frame [65]) = some fr ∧
      fr.in_buf_len = [65].length ∧ fr.in_buf.take [65].length = [65].map some) ∧
    (∃ fr, read_frame 0 (output_frame (List.replicate 70000 65)) = some fr ∧
      fr.in_buf_len = (List.replicate 70000 65).length ∧
      fr.in_buf.take (List.replicate 70000 65).length =
        (List.replicate 70000 65).map some) :=
  ⟨decode_encode_admissible 0 [] (by decide) (by decide),
   decode_encode_admissible 0 [65] (by decide) (by decide),
   decode_encode_admissible 0 (List.replicate 70000 65)
     (by rw [List.length_replicate]; decide) (by decide)⟩

/-! ## C2: what `output_object_code` leaves in the file -/

theorem utoaAux_eq_digits (fuel : Nat) : ∀ (n : Nat) (acc : List Nat), n ≤ fuel →
    utoaAux fuel n acc =
      (if n = 0 then [48] else ((Nat.digits 10 n).reverse.map (fun d => 48 + d))) ++ acc := by
  induction fuel with
  | zero =>
    intro n acc hn
    have h0 : n = 0 := by omega
    subst h0
    simp [utoaAux]
  | succ fuel ih =>
    intro n acc hn
    by_cases h10 : n < 10
    · by_cases h0 : n = 0
      · subst h0
        simp [utoaAux]
      · have hd : Nat.digits 10 n = [n] := Nat.digits_of_lt 10 n h0 h10
        simp [utoaAux, h10, h0, hd]
    · have hle : n / 10 ≤ fuel := by omega
      have h0 : n ≠ 0 := by omega
      have hq : n / 10 ≠ 0 := by omega
      have hd : Nat.digits 10 n = (n % 10) :: Nat.digits 10 (n / 10) :=
        Nat.digits_def' (by decide) (by omega)
      rw [utoaAux, if_neg h10, ih (n / 10) _ hle, if_neg hq, if_neg h0, hd]
      simp

/-- The text of `%u` is the decimal representation in the sense of
`Nat.digits`, most significant digit first, as ASCII. -/
theorem utoa_eq_digits (n : Nat) :
    utoa n = if n = 0 then [48] else ((Nat.digits 10 n).reverse.map (fun d => 48 + d)) := by
  have h := utoaAux_eq_digits n n [] (Nat.le_refl n)
  simpa [utoa] using h

/-- The successful run of `output_object_code`: the file at `bytefilename`
holds the header and the payload and nothing else, the other files are
untouched. -/
theorem output_object_code_ok (E : Engine) (bytefilename : String) (obj : JSValue)
    (w : World) (P : List Nat)
    (hser : E.JS_WriteObject w.trace obj E.JS_WRITE_OBJ_BYTECODE = some P)
    (hopen : w.openW bytefilename = true) :
    ∃ w1, output_object_code E bytefilename obj w = Outcome.ret () w1 ∧
      w1.files bytefilename = some (utoa (P.length % 2 ^ 32) ++ 10 :: P) ∧
      (∀ q, q ≠ bytefilename → w1.files q = w.files q) ∧
      w1.openR = w.openR ∧ w1.openW = w.openW ∧
      w1.trace = w.trace ++
        [Event.JS_WriteObject obj E.JS_WRITE_OBJ_BYTECODE, Event.fopen bytefilename "wb",
         Event.fclose bytefilename,
         Event.stdout ("Wrote " ++ toString P.length ++ "bytes to file \x27" ++ bytefilename
           ++ "\x27\n"),
         Event.js_free] := by
  simp only [output_object_code, byte_swap, Bool.false_eq_true, if_false]
  simp only [hser, fopen_wb, World.log, World.setFile, hopen, if_true]
  refine ⟨_, rfl, ?_, ?_, ?_, ?_, ?_⟩
  · simp [World.write, World.setFile, fprintf_u_nl]
  · intro q hq
    simp [World.write, World.setFile, hq]
  · rfl
  · rfl
  · simp [World.write, World.setFile]

/-- What `output_object_code` leaves in the file is the frame `output_frame`
of the payload. -/
theorem output_object_code_writes_frame (E : Engine) (bytefilename : String)
    (obj : JSValue) (w : World) (P : List Nat)
    (hser : E.JS_WriteObject w.trace obj E.JS_WRITE_OBJ_BYTECODE = some P)
    (hopen : w.openW bytefilename = true) :
    ∃ w1, output_object_code E bytefilename obj w = Outcome.ret () w1 ∧
      w1.files bytefilename = some (output_frame P) := by
  obtain ⟨w1, hret, hfile, -⟩ := output_object_code_ok E bytefilename obj w P hser hopen
  exact ⟨w1, hret, by rw [hfile, output_frame_eq]⟩

/-- C2, amended. Whenever the engine yields a payload `P` and the cache path
can be opened for writing, `output_object_code` returns and the file holds,
byte for byte, the decimal ASCII text of `len(P)` reduced modulo `2 ^ 32`
(the cast to `unsigned int`), one newline byte, and the bytes of `P`
unmodified, with nothing before, between or after; the length is the exact
byte count whenever `P` is shorter than `2 ^ 32` bytes. -/
theorem output_object_code_file_content (E : Engine) (bytefilename : String)
    (obj : JSValue) (w : World) (P : List Nat)
    (hser : E.JS_WriteObject w.trace obj E.JS_WRITE_OBJ_BYTECODE = some P)
    (hopen : w.openW bytefilename = true) :
    ∃ w1, output_object_code E bytefilename obj w = Outcome.ret () w1 ∧
      w1.files bytefilename = some (utoa (P.length % 2 ^ 32) ++ [10] ++ P) ∧
      (P.length < 2 ^ 32 → w1.files bytefilename = some (utoa P.length ++ [10] ++ P)) ∧
      (utoa (P.length % 2 ^ 32) =
        if P.length % 2 ^ 32 = 0 then [48]
        else (Nat.digits 10 (P.length % 2 ^ 32)).reverse.map (fun d => 48 + d)) := by
  obtain ⟨w1, hret, hfile, -⟩ := output_object_code_ok E bytefilename obj w P hser hopen
  refine ⟨w1, hret, ?_, ?_, utoa_eq_digits _⟩
  · simpa using hfile
  · intro hlt
    rw [Nat.mod_eq_of_lt hlt] at hfile
    simpa using hfile

/-- The engine `demoEngine` writing its two-byte payload to `c.bin`. -/
theorem output_object_code_file_content_witness :
    ∃ w1, output_object_code demoEngine "c.bin" (JSValue.other 66) emptyWorld
        = Outcome.ret () w1 ∧
      w1.files "c.bin" = some (utoa ([65, 66].length % 2 ^ 32) ++ [10] ++ [65, 66]) ∧
      ([65, 66].length < 2 ^ 32 →
        w1.files "c.bin" = some (utoa [65, 66].length ++ [10] ++ [65, 66])) ∧
      (utoa ([65, 66].length % 2 ^ 32) =
        if [65, 66].length % 2 ^ 32 = 0 then [48]
        else (Nat.digits 10 ([65, 66].length % 2 ^ 32)).reverse.map (fun d => 48 + d)) :=
  output_object_code_file_content demoEngine "c.bin" (JSValue.other 66) emptyWorld [65, 66]
    rfl rfl

/-- C2, refuted as stated. For a payload of `2 ^ 32` bytes the file starts
with the text `0` and a newline, not with the decimal text of the byte
count. -/
theorem output_object_code_file_content_counterexample :
    ∃ w1, output_object_code hugeEngine "c.bin" (JSValue.other 1) emptyWorld
        = Outcome.ret () w1 ∧
      w1.files "c.bin" = some (48 :: 10 :: List.replicate (2 ^ 32) 65) ∧
      w1.files "c.bin" ≠
        some (utoa (List.replicate (2 ^ 32) 65).length ++ [10] ++ List.replicate (2 ^ 32) 65) := by
  obtain ⟨w1, hret, hfile, -⟩ := output_object_code_ok hugeEngine "c.bin" (JSValue.other 1)
    emptyWorld (List.replicate (2 ^ 32) 65) rfl rfl
  have h0 : utoa 0 = [48] := by decide
  have hbig : utoa (2 ^ 32) = [52, 50, 57, 52, 57, 54, 55, 50, 57, 54] := by decide
  rw [List.length_replicate, Nat.mod_self, h0] at hfile
  refine ⟨w1, hret, hfile, ?_⟩
  rw [hfile, List.length_replicate, hbig]
  generalize List.replicate (2 ^ 32) 65 = X
  simp

/-! ## C5: a miss -/

/-- C5. For every path at which no entry exists, `read_js_from_cache`
returns `JS_UNDEFINED`: the run goes on, no file is changed, and the only
event added is one line on standard output, so that no file is opened and
the engine's deserialization is not called. -/
theorem read_js_from_cache_miss (E : Engine) (uninit : Nat) (bytefilename : String)
    (w : World) (hmiss : w.files bytefilename = none) :
    ∃ w1, read_js_from_cache E uninit bytefilename w = Outcome.ret JS_UNDEFINED w1 ∧
      w1.files = w.files ∧ w1.openR = w.openR ∧ w1.openW = w.openW ∧
      (∃ text, w1.trace = w.trace ++ [Event.stdout text]) ∧
      (∀ e ∈ w1.trace.drop w.trace.length,
        (∀ path mode, e ≠ Event.fopen path mode) ∧
        (∀ buf len flags, e ≠ Event.JS_ReadObject buf len flags)) := by
  have hacc : access_F_OK w bytefilename = -1 := by simp [access_F_OK, hmiss]
  simp only [read_js_from_cache, hacc, if_true, World.log]
  refine ⟨_, rfl, rfl, rfl, rfl, ⟨_, rfl⟩, ?_⟩
  intro e he
  simp at he
  subst he
  simp

/-- A miss in a world without files. -/
theorem read_js_from_cache_miss_witness :
    ∃ w1, read_js_from_cache demoEngine 0 "c.bin" emptyWorld = Outcome.ret JS_UNDEFINED w1 ∧
      w1.files = emptyWorld.files ∧ w1.openR = emptyWorld.openR ∧
      w1.openW = emptyWorld.openW ∧
      (∃ text, w1.trace = emptyWorld.trace ++ [Event.stdout text]) ∧
      (∀ e ∈ w1.trace.drop emptyWorld.trace.length,
        (∀ path mode, e ≠ Event.fopen path mode) ∧
        (∀ buf len flags, e ≠ Event.JS_ReadObject buf len flags)) :=
  read_js_from_cache_miss demoEngine 0 "c.bin" emptyWorld rfl

/-! ## C7: a compile failure -/

/-- C7. Whenever the source is loaded and the engine's compile step returns
an exception, `read_js_compile_and_cache_file` ends the run with exit
status 1; every path, the cache path included, is in its state from before
the call; and the events added are the load, the compile and the two
diagnostics: no `JS_WriteObject`, no `fopen`. -/
theorem compile_failure_leaves_cache (E : Engine) (jsfilename bytefilename : String)
    (w : World) (src : List Nat)
    (hload : js_load_file w jsfilename = some src)
    (hexc : JS_IsException (E.JS_Eval
      ((w.log (Event.js_load_file jsfilename)).log
        (Event.stdout ("Loaded file \x27" ++ jsfilename ++ "\x27 \n"))).trace
      src jsfilename (E.JS_EVAL_FLAG_COMPILE_ONLY ||| E.JS_EVAL_TYPE_GLOBAL)) = true) :
    ∃ w1, read_js_compile_and_cache_file E jsfilename bytefilename w = Outcome.exit 1 w1 ∧
      w1.files = w.files ∧ w1.openR = w.openR ∧ w1.openW = w.openW ∧
      w1.trace = w.trace ++
        [Event.js_load_file jsfilename,
         Event.stdout ("Loaded file \x27" ++ jsfilename ++ "\x27 \n"),
         Event.JS_Eval src jsfilename (E.JS_EVAL_FLAG_COMPILE_ONLY ||| E.JS_EVAL_TYPE_GLOBAL),
         Event.stderr ("Failed compiling JS of file  \x27" ++ jsfilename ++ "\x27\n"),
         Event.js_std_dump_error] := by
  simp only [read_js_compile_and_cache_file, hload, hexc, if_true]
  refine ⟨_, rfl, rfl, rfl, rfl, ?_⟩
  simp [World.log]

/-- A source file that is empty does not compile with `demoEngine`; a cache
file is there from before. -/
theorem compile_failure_leaves_cache_witness :
    ∃ w1, read_js_compile_and_cache_file demoEngine "a.js" "c.bin"
        ((oneFile "a.js" []).setFile "c.bin" [50, 10, 65, 49]) = Outcome.exit 1 w1 ∧
      w1.files = ((oneFile "a.js" []).setFile "c.bin" [50, 10, 65, 49]).files ∧
      w1.openR = ((oneFile "a.js" []).setFile "c.bin" [50, 10, 65, 49]).openR ∧
      w1.openW = ((oneFile "a.js" []).setFile "c.bin" [50, 10, 65, 49]).openW ∧
      w1.trace = ((oneFile "a.js" []).setFile "c.bin" [50, 10, 65, 49]).trace ++
        [Event.js_load_file "a.js",
         Event.stdout ("Loaded file \x27" ++ "a.js" ++ "\x27 \n"),
         Event.JS_Eval [] "a.js"
           (demoEngine.JS_EVAL_FLAG_COMPILE_ONLY ||| demoEngine.JS_EVAL_TYPE_GLOBAL),
         Event.stderr ("Failed compiling JS of file  \x27" ++ "a.js" ++ "\x27\n"),
         Event.js_std_dump_error] :=
  compile_failure_leaves_cache demoEngine "a.js" "c.bin"
    ((oneFile "a.js" []).setFile "c.bin" [50, 10, 65, 49]) [] (by decide) rfl

/-! ## C6: the second run overwrites -/

/-- A call of `output_object_code` that returns found the path open for
writing, and leaves the `fopen` behaviour of every path as it was. -/
theorem output_object_code_ret_openW (E : Engine) (bytefilename : String) (obj : JSValue)
    (w w1 : World) (u : Unit)
    (h : output_object_code E bytefilename obj w = Outcome.ret u w1) :
    w.openW bytefilename = true ∧ w1.openW = w.openW ∧ w1.openR = w.openR := by
  simp only [output_object_code, byte_swap, Bool.false_eq_true, if_false] at h
  cases hs : E.JS_WriteObject w.trace obj E.JS_WRITE_OBJ_BYTECODE with
  | none => simp [hs] at h
  | some P =>
    cases ho : w.openW bytefilename with
    | false => simp [hs, fopen_wb, World.log, ho] at h
    | true =>
      simp only [hs, fopen_wb, World.log, ho, if_true] at h
      cases h
      exact ⟨rfl, rfl, rfl⟩

/-- The same for `read_js_compile_and_cache_file`. -/
theorem read_js_compile_and_cache_file_ret_openW (E : Engine)
    (jsfilename bytefilename : String) (w w1 : World) (v : JSValue)
    (h : read_js_compile_and_cache_file E jsfilename bytefilename w = Outcome.ret v w1) :
    w.openW bytefilename = true ∧ w1.openW = w.openW ∧ w1.openR = w.openR := by
  unfold read_js_compile_and_cache_file at h
  cases hl : js_load_file w jsfilename with
  | none => simp [hl] at h
  | some src =>
    simp only [hl] at h
    split at h
    · cases h
    · rename_i hexc
      split at h
      · rename_i u w2 hout
        cases h
        have h3 := output_object_code_ret_openW E bytefilename _ _ w1 u hout
        exact h3
      · cases h
      · cases h

/-- The successful run of `read_js_compile_and_cache_file`: it returns the
compiled value and the cache file holds exactly the frame of its payload. -/
theorem read_js_compile_and_cache_file_ok (E : Engine) (jsfilename bytefilename : String)
    (w : World) (src P : List Nat)
    (hload : js_load_file w jsfilename = some src)
    (hcomp : JS_IsException (E.JS_Eval
      ((w.log (Event.js_load_file jsfilename)).log
        (Event.stdout ("Loaded file \x27" ++ jsfilename ++ "\x27 \n"))).trace
      src jsfilename (E.JS_EVAL_FLAG_COMPILE_ONLY ||| E.JS_EVAL_TYPE_GLOBAL)) = false)
    (hser : E.JS_WriteObject
      (((w.log (Event.js_load_file jsfilename)).log
        (Event.stdout ("Loaded file \x27" ++ jsfilename ++ "\x27 \n"))).log
        (Event.JS_Eval src jsfilename
          (E.JS_EVAL_FLAG_COMPILE_ONLY ||| E.JS_EVAL_TYPE_GLOBAL))).trace
      (E.JS_Eval
        ((w.log (Event.js_load_file jsfilename)).log
          (Event.stdout ("Loaded file \x27" ++ jsfilename ++ "\x27 \n"))).trace
        src jsfilename (E.JS_EVAL_FLAG_COMPILE_ONLY ||| E.JS_EVAL_TYPE_GLOBAL))
      E.JS_WRITE_OBJ_BYTECODE = some P)
    (hopen : w.openW bytefilename = true) :
    ∃ w1, read_js_compile_and_cache_file E jsfilename bytefilename w =
        Outcome.ret (E.JS_Eval
          ((w.log (Event.js_load_file jsfilename)).log
            (Event.stdout ("Loaded file \x27" ++ jsfilename ++ "\x27 \n"))).trace
          src jsfilename (E.JS_EVAL_FLAG_COMPILE_ONLY ||| E.JS_EVAL_TYPE_GLOBAL)) w1 ∧
      w1.files bytefilename = some (output_frame P) ∧
      (∀ q, q ≠ bytefilename → w1.files q = w.files q) ∧
      w1.openR = w.openR ∧ w1.openW = w.openW := by
  obtain ⟨w1, hret, hfile, hother, hR, hW, -⟩ :=
    output_object_code_ok E bytefilename _ _ P hser hopen
  refine ⟨w1, ?_, ?_, hother, hR, hW⟩
  · simp only [read_js_compile_and_cache_file, hload, hcomp, hret]
    simp
  · rw [hfile, output_frame_eq]

/-- C6. After a run of `read_js_compile_and_cache_file` on a cache path that
returned (source A, any world before it), a second run on the same cache
path with a source B that loads, compiles and serializes to a payload
returns as well, and the cache file then holds exactly the frame of B's
payload: nothing of the first frame, nothing of what the file held
before. -/
theorem overwrite_no_append (E : Engine) (jsA jsB bytefilename : String)
    (w wA : World) (vA : JSValue) (srcB PB : List Nat)
    (hA : read_js_compile_and_cache_file E jsA bytefilename w = Outcome.ret vA wA)
    (hload : js_load_file wA jsB = some srcB)
    (hcomp : JS_IsException (E.JS_Eval
      ((wA.log (Event.js_load_file jsB)).log
        (Event.stdout ("Loaded file \x27" ++ jsB ++ "\x27 \n"))).trace
      srcB jsB (E.JS_EVAL_FLAG_COMPILE_ONLY ||| E.JS_EVAL_TYPE_GLOBAL)) = false)
    (hser : E.JS_WriteObject
      (((wA.log (Event.js_load_file jsB)).log
        (Event.stdout ("Loaded file \x27" ++ jsB ++ "\x27 \n"))).log
        (Event.JS_Eval srcB jsB (E.JS_EVAL_FLAG_COMPILE_ONLY ||| E.JS_EVAL_TYPE_GLOBAL))).trace
      (E.JS_Eval
        ((wA.log (Event.js_load_file jsB)).log
          (Event.stdout ("Loaded file \x27" ++ jsB ++ "\x27 \n"))).trace
        srcB jsB (E.JS_EVAL_FLAG_COMPILE_ONLY ||| E.JS_EVAL_TYPE_GLOBAL))
      E.JS_WRITE_OBJ_BYTECODE = some PB) :
    ∃ vB wB, read_js_compile_and_cache_file E jsB bytefilename wA = Outcome.ret vB wB ∧
      wB.files bytefilename = some (utoa (PB.length % 2 ^ 32) ++ [10] ++ PB) := by
  obtain ⟨hopenA, hW, -⟩ := read_js_compile_and_cache_file_ret_openW E jsA bytefilename w wA vA hA
  have hopen : wA.openW bytefilename = true := by rw [hW]; exact hopenA
  obtain ⟨wB, hret, hfile, -⟩ :=
    read_js_compile_and_cache_file_ok E jsB bytefilename wA srcB PB hload hcomp hser hopen
  refine ⟨_, wB, hret, ?_⟩
  rw [hfile, output_frame_eq]
  simp

/-- Two runs of `demoEngine` on `c.bin`, which holds `xyz` beforehand: first
the source `1` of `a.js`, then the source `2` of `b.js`. -/
theorem overwrite_no_append_witness :
    ∃ vB wB, read_js_compile_and_cache_file demoEngine "b.js" "c.bin"
        (read_js_compile_and_cache_file demoEngine "a.js" "c.bin"
          (((oneFile "a.js" [49]).setFile "b.js" [50]).setFile "c.bin" [120, 121, 122])).world
        = Outcome.ret vB wB ∧
      wB.files "c.bin" = some (utoa ([65, 50].length % 2 ^ 32) ++ [10] ++ [65, 50]) :=
  overwrite_no_append demoEngine "a.js" "b.js" "c.bin"
    (((oneFile "a.js" [49]).setFile "b.js" [50]).setFile "c.bin" [120, 121, 122])
    (read_js_compile_and_cache_file demoEngine "a.js" "c.bin"
      (((oneFile "a.js" [49]).setFile "b.js" [50]).setFile "c.bin" [120, 121, 122])).world
    (JSValue.other 49) [50] [65, 50] rfl rfl rfl rfl

/-! ## C8: an exception of the script -/

/-- C8. Whenever `main` gets as far as executing the compiled unit read back
from the cache (runtime and context allocated, the compile-and-cache step
and the read-back both returned), `main` returns 0, which is the exit
status of the process, whether or not the execution yields an exception.
When it does, the events that follow the call of `JS_EvalFunction` are, in
this order: the diagnostic on standard error, `js_std_dump_error`,
`js_std_loop`, the `DONE` line, and the teardown (`JS_FreeValue`,
`js_std_free_handlers`, `JS_FreeContext`, `JS_FreeRuntime`). When it does
not, they are the same without the two diagnostics. -/
theorem main_script_exception (E : Engine) (uninit : Nat) (jsfilename bytefilename : String)
    (w w1 w2 : World) (origJsCode cachedJsCode : JSValue)
    (hrt : E.JS_NewRuntime w.trace = true)
    (hctx : E.JS_NewContext (w.log Event.JS_NewRuntime).trace = true)
    (hcompile : read_js_compile_and_cache_file E jsfilename bytefilename
      (((w.log Event.JS_NewRuntime).log Event.JS_NewContext).log Event.js_std_add_helpers)
      = Outcome.ret origJsCode w1)
    (hread : read_js_from_cache E uninit bytefilename (w1.log (Event.JS_FreeValue origJsCode))
      = Outcome.ret cachedJsCode w2) :
    ∃ wf, main E uninit jsfilename bytefilename w = Outcome.ret 0 wf ∧
      (JS_IsException
          (E.JS_EvalFunction (w2.log (Event.stdout "Executing JS ....\n")).trace cachedJsCode)
          = true →
        wf.trace = w2.trace ++
          [Event.stdout "Executing JS ....\n",
           Event.JS_EvalFunction cachedJsCode,
           Event.stderr "Failed executing cached JS",
           Event.js_std_dump_error,
           Event.js_std_loop,
           Event.stdout "DONE executing JS.\n",
           Event.JS_FreeValue
             (E.JS_EvalFunction (w2.log (Event.stdout "Executing JS ....\n")).trace
               cachedJsCode),
           Event.js_std_free_handlers,
           Event.JS_FreeContext,
           Event.JS_FreeRuntime]) ∧
      (JS_IsException
          (E.JS_EvalFunction (w2.log (Event.stdout "Executing JS ....\n")).trace cachedJsCode)
          = false →
        wf.trace = w2.trace ++
          [Event.stdout "Executing JS ....\n",
           Event.JS_EvalFunction cachedJsCode,
           Event.js_std_loop,
           Event.stdout "DONE executing JS.\n",
           Event.JS_FreeValue
             (E.JS_EvalFunction (w2.log (Event.stdout "Executing JS ....\n")).trace
               cachedJsCode),
           Event.js_std_free_handlers,
           Event.JS_FreeContext,
           Event.JS_FreeRuntime]) := by
  simp only [main, hrt, hctx, hcompile, hread, Bool.not_true, Bool.false_eq_true, if_false]
  refine ⟨_, rfl, ?_, ?_⟩
  · intro hexc
    simp only [World.log] at hexc
    simp [hexc, World.log]
  · intro hok
    simp only [World.log] at hok
    simp [hok, World.log]

/-- A full run of `main` with `demoEngine`, whose `JS_EvalFunction` raises an
exception, on the source `1` in `a.js`. -/
theorem main_script_exception_witness :
    ∃ wf, main demoEngine 0 "a.js" "c.bin" (oneFile "a.js" [49]) = Outcome.ret 0 wf ∧
      wf.trace.drop 16 =
        [Event.JS_EvalFunction (JSValue.other 49),
         Event.stderr "Failed executing cached JS",
         Event.js_std_dump_error,
         Event.js_std_loop,
         Event.stdout "DONE executing JS.\n",
         Event.JS_FreeValue JSValue.exception,
         Event.js_std_free_handlers,
         Event.JS_FreeContext,
         Event.JS_FreeRuntime] := by
  obtain ⟨wf, hmain, hexc, -⟩ := main_script_exception demoEngine 0 "a.js" "c.bin"
    (oneFile "a.js" [49])
    (read_js_compile_and_cache_file demoEngine "a.js" "c.bin"
      ((((oneFile "a.js" [49]).log Event.JS_NewRuntime).log Event.JS_NewContext).log
        Event.js_std_add_helpers)).world
    (read_js_from_cache demoEngine 0 "c.bin"
      ((read_js_compile_and_cache_file demoEngine "a.js" "c.bin"
        ((((oneFile "a.js" [49]).log Event.JS_NewRuntime).log Event.JS_NewContext).log
          Event.js_std_add_helpers)).world.log (Event.JS_FreeValue (JSValue.other 49)))).world
    (JSValue.other 49) (JSValue.other 49) rfl rfl rfl rfl
  refine ⟨wf, hmain, ?_⟩
  rw [hexc rfl]
  rfl

/-! ## Reading an existing cache file -/

theorem access_F_OK_of_exists (w : World) (path : String) (content : List Nat)
    (hex : w.files path = some content) : ¬ (access_F_OK w path = -1) := by
  simp [access_F_OK, hex]

/-- An existing file that is opened and whose frame-reading steps stay inside
the block: the engine is called on what they yield, and its answer alone
decides between exit status 1 and a return. -/
theorem read_js_from_cache_read (E : Engine) (uninit : Nat) (bytefilename : String)
    (w : World) (content : List Nat) (fr : FrameRead)
    (hex : w.files bytefilename = some content) (hR : w.openR bytefilename = true)
    (hfr : read_frame uninit content = some fr) :
    read_js_from_cache E uninit bytefilename w =
      if JS_IsException (E.JS_ReadObject
          ((w.log (Event.fopen bytefilename "rb")).log (Event.stdout
            ("Read " ++ toString fr.in_buf_len ++ "bytes of bytecode from file \x27"
              ++ bytefilename ++ "\x27\n"))).trace
          fr.in_buf fr.in_buf_len E.JS_READ_OBJ_BYTECODE) then
        Outcome.exit 1 (((((w.log (Event.fopen bytefilename "rb")).log (Event.stdout
            ("Read " ++ toString fr.in_buf_len ++ "bytes of bytecode from file \x27"
              ++ bytefilename ++ "\x27\n"))).log
          (Event.JS_ReadObject fr.in_buf fr.in_buf_len E.JS_READ_OBJ_BYTECODE)).log
          (Event.stderr ("Failed reading JS of read file \x27" ++ bytefilename
            ++ "\x27 into QuickJS.\n"))).log Event.js_std_dump_error)
      else
        Outcome.ret (E.JS_ReadObject
          ((w.log (Event.fopen bytefilename "rb")).log (Event.stdout
            ("Read " ++ toString fr.in_buf_len ++ "bytes of bytecode from file \x27"
              ++ bytefilename ++ "\x27\n"))).trace
          fr.in_buf fr.in_buf_len E.JS_READ_OBJ_BYTECODE)
          (((w.log (Event.fopen bytefilename "rb")).log (Event.stdout
            ("Read " ++ toString fr.in_buf_len ++ "bytes of bytecode from file \x27"
              ++ bytefilename ++ "\x27\n"))).log
          (Event.JS_ReadObject fr.in_buf fr.in_buf_len E.JS_READ_OBJ_BYTECODE)) := by
  have hacc := access_F_OK_of_exists w bytefilename content hex
  have hopen : fopen_rb (w.log (Event.fopen bytefilename "rb")) bytefilename = some content := by
    simp [fopen_rb, World.log, hex, hR]
  simp only [read_js_from_cache, if_neg hacc, hopen, hfr]

/-! ## C9: fatal read failures -/

/-- A stream shorter than the size asked for: everything is transferred, the
rest of the block stays indeterminate. -/
theorem fread_short (n : Nat) (s : List Nat) (h : s.length ≤ n) :
    fread (malloc (n + 1)) n s =
      some (s.map some ++ List.replicate (n + 1 - s.length) none, []) := by
  have htake : s.take n = s := List.take_of_length_le h
  have hdrop : s.drop n = [] := List.drop_of_length_le h
  have hfit : s.length ≤ (malloc (n + 1)).length := by
    simp only [malloc, List.length_replicate]
    omega
  simp only [fread, htake, hdrop, if_pos hfit]
  simp [malloc]

/-- On a stream of digits only, `fscanf` leaves nothing unread. -/
theorem fscanf_u_nl_digits (t : List Nat) (hdig : ∀ d ∈ t, isdigit d = true) :
    (fscanf_u_nl t).2 = [] := by
  cases t with
  | nil => rfl
  | cons d t1 =>
    have hd : isdigit d = true := hdig d (by simp)
    have hsp : isspace d = false := isdigit_not_isspace hd
    have h1 : (d :: t1).dropWhile isspace = d :: t1 := by
      simp [List.dropWhile_cons, hsp]
    have h2 : scanSign (d :: t1) = (false, d :: t1) := scanSign_of_isdigit _ hd
    have h3 : (d :: t1).takeWhile isdigit = d :: t1 :=
      List.takeWhile_eq_self_iff.mpr hdig
    have h4 : (d :: t1).dropWhile isdigit = [] := by
      have h := @List.dropWhile_append_of_pos Nat isdigit (d :: t1) [] hdig
      simpa using h
    simp only [fscanf_u_nl, h1, h2, h3, h4]
    rfl

/-- On a stream of digits only, the frame-reading steps transfer nothing. -/
theorem read_frame_digits (uninit : Nat) (t : List Nat)
    (hdig : ∀ d ∈ t, isdigit d = true) :
    ∃ fr, read_frame uninit t = some fr ∧ fr.in_buf = malloc fr.alloc ∧ fr.rest = [] := by
  have h := fscanf_u_nl_digits t hdig
  cases hsc : fscanf_u_nl t with
  | mk stored rest =>
    rw [hsc] at h
    simp only at h
    subst h
    simp [read_frame, hsc, fread, malloc]

theorem head?_take_mem {P : List Nat} {j b : Nat} (h : b ∈ (P.take j).head?) :
    b ∈ P.head? := by
  cases P with
  | nil => simp at h
  | cons a t =>
    cases j with
    | zero => simp at h
    | succ j => simpa using h

/-- The frame-reading steps on a written frame cut inside the payload or
right after the header line: the declared length is that of the whole
payload, and the block holds what is left of the payload, from its first
byte that is not white space on. -/
theorem read_frame_cut_payload (uninit : Nat) (P : List Nat) (j : Nat)
    (hlen : P.length < 2 ^ 32 - 1) (hj : j ≤ P.length) :
    read_frame uninit (utoa P.length ++ 10 :: P.take j) =
      some ⟨P.length, P.length + 1,
        ((P.take j).dropWhile isspace).map some ++
          List.replicate (P.length + 1 - ((P.take j).dropWhile isspace).length) none, []⟩ := by
  have h2 : (P.length + 1) % 2 ^ 32 = P.length + 1 := Nat.mod_eq_of_lt (by omega)
  have hsub : ((P.take j).dropWhile isspace).length ≤ P.length := by
    have h1 := (List.dropWhile_sublist (l := P.take j) isspace).length_le
    have h3 : (P.take j).length ≤ P.length := by
      rw [List.length_take]
      omega
    omega
  simp only [read_frame, fscanf_u_nl_header P.length (by omega), Option.getD_some, h2,
    fread_short P.length _ hsub]

/-- C3, amended. Take the frame written for a payload `P` shorter than
`2 ^ 32 - 1` bytes, remove its last `k` bytes, `1 ≤ k ≤` size of the file,
and let `read_js_from_cache` read the result. The truncation is not
detected by the frame-reading steps: they always yield a declared length and
a block, the engine's deserialization is called on them, and the run ends
with exit status 1 exactly when the engine reports an exception; otherwise
the engine's value is returned. When `k ≤ len(P)` and `P` does not begin
with white space, the declared length is still `len(P)` and the block holds
the `len(P) - k` bytes left of `P` followed by `k + 1` indeterminate
bytes. -/
theorem truncated_cache_read (E : Engine) (uninit : Nat) (bytefilename : String)
    (w : World) (P : List Nat) (k : Nat)
    (hlen : P.length < 2 ^ 32 - 1) (hk1 : 1 ≤ k) (hk2 : k ≤ (output_frame P).length)
    (hex : w.files bytefilename =
      some ((output_frame P).take ((output_frame P).length - k)))
    (hR : w.openR bytefilename = true) :
    ∃ fr, read_frame uninit ((output_frame P).take ((output_frame P).length - k)) = some fr ∧
      (k ≤ P.length → (∀ b ∈ P.head?, b ∉ [32, 9, 10, 11, 12, 13]) →
        fr.in_buf_len = P.length ∧
        fr.in_buf = (P.take (P.length - k)).map some ++ List.replicate (k + 1) none) ∧
      (JS_IsException (E.JS_ReadObject
          ((w.log (Event.fopen bytefilename "rb")).log (Event.stdout
            ("Read " ++ toString fr.in_buf_len ++ "bytes of bytecode from file \x27"
              ++ bytefilename ++ "\x27\n"))).trace
          fr.in_buf fr.in_buf_len E.JS_READ_OBJ_BYTECODE) = true →
        ∃ w1, read_js_from_cache E uninit bytefilename w = Outcome.exit 1 w1 ∧
          Event.JS_ReadObject fr.in_buf fr.in_buf_len E.JS_READ_OBJ_BYTECODE ∈ w1.trace) ∧
      (JS_IsException (E.JS_ReadObject
          ((w.log (Event.fopen bytefilename "rb")).log (Event.stdout
            ("Read " ++ toString fr.in_buf_len ++ "bytes of bytecode from file \x27"
              ++ bytefilename ++ "\x27\n"))).trace
          fr.in_buf fr.in_buf_len E.JS_READ_OBJ_BYTECODE) = false →
        ∃ w1, read_js_from_cache E uninit bytefilename w =
            Outcome.ret (E.JS_ReadObject
              ((w.log (Event.fopen bytefilename "rb")).log (Event.stdout
                ("Read " ++ toString fr.in_buf_len ++ "bytes of bytecode from file \x27"
                  ++ bytefilename ++ "\x27\n"))).trace
              fr.in_buf fr.in_buf_len E.JS_READ_OBJ_BYTECODE) w1 ∧
          Event.JS_ReadObject fr.in_buf fr.in_buf_len E.JS_READ_OBJ_BYTECODE ∈ w1.trace) := by
  have hmod : P.length % 2 ^ 32 = P.length := Nat.mod_eq_of_lt (by omega)
  have hF : output_frame P = utoa P.length ++ 10 :: P := by
    rw [output_frame_eq, hmod]
  have hFlen : (output_frame P).length = (utoa P.length).length + (1 + P.length) := by
    rw [hF]
    simp
    omega
  -- the frame-reading steps yield a block, whatever `k` is
  have hfr : ∃ fr, read_frame uninit ((output_frame P).take ((output_frame P).length - k))
      = some fr ∧
      (k ≤ P.length → (∀ b ∈ P.head?, b ∉ [32, 9, 10, 11, 12, 13]) →
        fr.in_buf_len = P.length ∧
        fr.in_buf = (P.take (P.length - k)).map some ++ List.replicate (k + 1) none) := by
    by_cases hm : (output_frame P).length - k ≤ (utoa P.length).length
    · have htake : (output_frame P).take ((output_frame P).length - k) =
          (utoa P.length).take ((output_frame P).length - k) := by
        rw [hF]
        rw [hF] at hm
        exact List.take_append_of_le_length hm
      have hdig : ∀ d ∈ (utoa P.length).take ((output_frame P).length - k),
          isdigit d = true := by
        intro d hd
        exact (utoa_spec P.length).2.1 d (List.mem_of_mem_take hd)
      obtain ⟨fr, hfr, -, -⟩ := read_frame_digits uninit _ hdig
      refine ⟨fr, by rw [htake]; exact hfr, ?_⟩
      intro hk _
      omega
    · obtain ⟨j, hj⟩ : ∃ j, (output_frame P).length - k = (utoa P.length).length + (j + 1) :=
        ⟨(output_frame P).length - k - (utoa P.length).length - 1, by omega⟩
      have hjle : j ≤ P.length := by omega
      have htake : (output_frame P).take ((output_frame P).length - k) =
          utoa P.length ++ 10 :: P.take j := by
        rw [hj, hF, List.take_append_eq_append_take]
        have h1 : (utoa P.length).take ((utoa P.length).length + (j + 1)) = utoa P.length :=
          List.take_of_length_le (by omega)
        have h2 : (utoa P.length).length + (j + 1) - (utoa P.length).length = j + 1 := by
          omega
        rw [h1, h2]
        rfl
      refine ⟨_, by rw [htake]; exact read_frame_cut_payload uninit P j hlen hjle, ?_⟩
      intro hk hws
      have hjk : j = P.length - k := by omega
      have hdrop : (P.take j).dropWhile isspace = P.take j :=
        dropWhile_isspace_eq_self (fun b hb => hws b (head?_take_mem hb))
      have hl : (P.take j).length = j := by
        rw [List.length_take]
        omega
      refine ⟨rfl, ?_⟩
      simp only [hdrop, hl]
      rw [← hjk]
      have h3 : P.length + 1 - j = k + 1 := by omega
      rw [h3]
  obtain ⟨fr, hfr1, hfr2⟩ := hfr
  have h := read_js_from_cache_read E uninit bytefilename w _ fr hex hR hfr1
  refine ⟨fr, hfr1, hfr2, ?_, ?_⟩
  · intro hexc
    rw [if_pos hexc] at h
    exact ⟨_, h, by simp [World.log]⟩
  · intro hok
    rw [hok] at h
    exact ⟨_, h, by simp [World.log]⟩

/-- The frame of the payload `A1` without its last byte, read with
`demoEngine`, which rejects the block. -/
theorem truncated_cache_read_witness :
    ∃ fr, read_frame 0 [50, 10, 65] = some fr ∧
      fr.in_buf_len = 2 ∧ fr.in_buf = [some 65, none, none] ∧
      ∃ w1, read_js_from_cache demoEngine 0 "c.bin" (oneFile "c.bin" [50, 10, 65])
          = Outcome.exit 1 w1 ∧
        Event.JS_ReadObject fr.in_buf fr.in_buf_len 1 ∈ w1.trace := by
  obtain ⟨fr, h1, h2, h3, -⟩ := truncated_cache_read demoEngine 0 "c.bin"
    (oneFile "c.bin" [50, 10, 65]) [65, 49] 1 (by decide) (by decide) (by decide) rfl rfl
  have hcut : (output_frame [65, 49]).take ((output_frame [65, 49]).length - 1)
      = [50, 10, 65] := by decide
  have hval : read_frame 0 [50, 10, 65] = some ⟨2, 3, [some 65, none, none], []⟩ := by decide
  rw [hcut, hval] at h1
  cases h1
  exact ⟨_, hval, rfl, rfl, h3 rfl⟩

/-- C3, refuted as stated. The frame of the two-byte payload `A1` is
`2\nA1`; without its last byte it is `2\nA`. Reading that file, the engine
is handed the declared length 2 and a block whose second byte was never
written. An engine that accepts it makes `read_js_from_cache` return a
value; with `demoEngine`, which rejects it, the same block is handed over
before the run ends. -/
theorem corruption_detection_counterexample :
    (output_frame [65, 49]).take ((output_frame [65, 49]).length - 1) = [50, 10, 65] ∧
    (∃ w1 line, read_js_from_cache laxEngine 0 "c.bin" (oneFile "c.bin" [50, 10, 65])
        = Outcome.ret (JSValue.other 1) w1 ∧
      w1.trace = [Event.fopen "c.bin" "rb", Event.stdout line,
        Event.JS_ReadObject [some 65, none, none] 2 1]) ∧
    (∃ w1 line text, read_js_from_cache demoEngine 0 "c.bin" (oneFile "c.bin" [50, 10, 65])
        = Outcome.exit 1 w1 ∧
      w1.trace = [Event.fopen "c.bin" "rb", Event.stdout line,
        Event.JS_ReadObject [some 65, none, none] 2 1,
        Event.stderr text, Event.js_std_dump_error]) :=
  ⟨by decide, ⟨_, _, rfl, rfl⟩, ⟨_, _, _, rfl, rfl⟩⟩

end QjsCache
